import Mathlib

/-!
Verification of the marker-visualization core of
`src/visualization/visualization_tools/src/marker_visualization.cpp`.

The file embeds, as executable Lean definitions, the parts of the source
the claims are about:

* quaternion / vector arithmetic standing in for `Eigen::Affine3d`,
  `Ogre::Quaternion` and `Ogre::Vector3` (rational components; the source
  only ever composes and applies rigid transforms);
* `toPlanningFrame` (the anonymous-namespace helper, lines 61-79), with the
  `ROS_WARN_ONCE` call-site flag made explicit;
* the `MarkerVisualization` constructor (lines 82-97), both as a pure
  list function and, for the aliasing question, over an explicit store of
  marker messages modelling `data.first.reset(new Marker(marker))`;
* `setVisibility` / `MarkerVisualization::setVisible` (lines 107-121) over
  an explicit scene-graph parent map, with null-pointer dereference and
  `Ogre::Node::addChild` re-parenting failures modelled as `none`;
* `createMarker` (the type switch, lines 22-57) and
  `MarkerVisualization::createMarkers` (lines 123-161), with the single
  tf lookup modelled as a possibly-failing call whose failure (a thrown
  `tf::TransformException`) aborts the loop and propagates out.
-/

namespace MarkerViz

/-- Quaternion with rational components, standing in for `Ogre::Quaternion`
and the rotation part of `Eigen::Affine3d` (w, x, y, z order as in the
`Ogre::Quaternion(w, x, y, z)` constructor used at line 152). -/
structure Quat where
  w : ℚ
  x : ℚ
  y : ℚ
  z : ℚ
deriving DecidableEq, Repr

/-- 3-vector with rational components, standing in for `Ogre::Vector3` and
`Eigen` translation vectors. -/
structure Vec3 where
  x : ℚ
  y : ℚ
  z : ℚ
deriving DecidableEq, Repr

/-- Hamilton product of quaternions (`Ogre::Quaternion::operator*` and the
rotation part of `Eigen::Affine3d` composition, for unit quaternions). -/
def qmul (a b : Quat) : Quat :=
  ⟨a.w * b.w - a.x * b.x - a.y * b.y - a.z * b.z,
   a.w * b.x + a.x * b.w + a.y * b.z - a.z * b.y,
   a.w * b.y - a.x * b.z + a.y * b.w + a.z * b.x,
   a.w * b.z + a.x * b.y - a.y * b.x + a.z * b.w⟩

/-- Quaternion conjugate.  Line 152 builds
`Ogre::Quaternion(q.w(), -q.x(), -q.y(), -q.z())`, i.e. the conjugate of
the rotation returned by the tf lookup. -/
def qconj (q : Quat) : Quat := ⟨q.w, -q.x, -q.y, -q.z⟩

/-- Rotation of a vector by a (unit) quaternion, `q * v * conj q`
(`Ogre::Quaternion::operator*(Vector3)`, Eigen rotation action). -/
def qrot (q : Quat) (v : Vec3) : Vec3 :=
  let p : Quat := qmul (qmul q ⟨0, v.x, v.y, v.z⟩) (qconj q)
  ⟨p.x, p.y, p.z⟩

/-- Vector addition. -/
def vadd (a b : Vec3) : Vec3 := ⟨a.x + b.x, a.y + b.y, a.z + b.z⟩

/-- Vector subtraction (`data.second->getPosition() - pos`, line 158). -/
def vsub (a b : Vec3) : Vec3 := ⟨a.x - b.x, a.y - b.y, a.z - b.z⟩

/-- A rigid transform (rotation + translation), standing in for
`Eigen::Affine3d` and for the pose stored in a marker message. -/
structure Aff where
  rot : Quat
  trans : Vec3
deriving DecidableEq, Repr

/-- Composition of rigid transforms, `tm * pose` at line 76:
rotations compose by quaternion product, translations by
`t₁ + R₁ t₂` (the standard `Eigen::Affine3d` product on unit
quaternions). -/
def affMul (a b : Aff) : Aff :=
  ⟨qmul a.rot b.rot, vadd a.trans (qrot a.rot b.trans)⟩

/-- The fields of `visualization_msgs::Marker` the core reads or writes:
`header.frame_id`, `ns`, `pose` and `type`.  The type-specific payload
(scale, color, points, text, mesh URI) is opaque to the reconciliation
logic and is summarised by `payload`. -/
structure Marker where
  frame_id : String
  ns : String
  pose : Aff
  type : Nat
  payload : Nat
deriving DecidableEq, Repr

/-- The scene-snapshot interface the constructor consumes
(`planning_scene::PlanningScene`): the planning frame, the
known-transform predicate and the frame-to-planning-frame transform. -/
structure PlanningScene where
  planningFrame : String
  knows : String → Bool
  frameTransform : String → Aff

/-- `toPlanningFrame` (lines 61-79).  `warned` is the `ROS_WARN_ONCE`
call-site flag (a file-static boolean: the warning fires only the first
time the statement executes in the whole process, whatever the format
arguments are).  Returns the marker to keep (`none` = drop), the updated
flag, and the warnings emitted as (frame, namespace) pairs. -/
def toPlanningFrame (m : Marker) (scene : PlanningScene) (warned : Bool) :
    Option Marker × Bool × List (String × String) :=
  if m.frame_id = scene.planningFrame then
    (some m, warned, [])
  else if ¬ scene.knows m.frame_id then
    if warned then (none, warned, [])
    else (none, true, [(m.frame_id, m.ns)])
  else
    (some { m with
              pose := affMul (scene.frameTransform m.frame_id) m.pose,
              frame_id := scene.planningFrame },
     warned, [])

/-- A render handle (`rviz::MarkerBase`) is dispatched from the marker
type by the `createMarker` switch (lines 22-57); these are the concrete
subclasses it constructs. -/
inductive MKind where
  | shape
  | arrow
  | lineStrip
  | lineList
  | points
  | text
  | mesh
  | triangleList
deriving DecidableEq, Repr

/-- The `createMarker` type switch (lines 22-57): which `rviz::MarkerBase`
subclass each `visualization_msgs::Marker` type constant yields;
`none` models the `default:` branch returning `nullptr`
(ARROW=0, CUBE=1, SPHERE=2, CYLINDER=3, LINE_STRIP=4, LINE_LIST=5,
CUBE_LIST=6, SPHERE_LIST=7, POINTS=8, TEXT_VIEW_FACING=9,
MESH_RESOURCE=10, TRIANGLE_LIST=11). -/
def createMarker (marker_type : Nat) : Option MKind :=
  match marker_type with
  | 0 => some .arrow
  | 1 => some .shape
  | 2 => some .shape
  | 3 => some .shape
  | 4 => some .lineStrip
  | 5 => some .lineList
  | 6 => some .points
  | 7 => some .points
  | 8 => some .points
  | 9 => some .text
  | 10 => some .mesh
  | 11 => some .triangleList
  | _ => none

/-- A materialized render handle: the subclass, the namespace scene node
it is attached to, the message passed to `setMessage`, and the position /
orientation the node carries after the alignment at lines 157-158. -/
structure Handle where
  kind : MKind
  node : Nat
  msg : Marker
  orientation : Quat
  position : Vec3
deriving DecidableEq, Repr

/-- One `MarkerData` entry: the stored marker message together with the
lazily created render handle (`none` until `createMarkers` fills it). -/
abbrev MarkerData := Marker × Option Handle

/-- The `namespaces_` map: namespace name to the `Ogre::SceneNode*` of its
grouping node, `none` for `nullptr`.  Modelled as an association list;
`std::map::insert` keeps an existing entry, which `nsInsert` mirrors. -/
abbrev NsMap := List (String × Option Nat)

/-- `namespaces_.insert(make_pair(ns, nullptr))`: a no-op when the key is
present, otherwise adds the key bound to `nullptr`. -/
def nsInsert (m : NsMap) (k : String) : NsMap :=
  if m.any (fun p => p.1 = k) then m else (k, none) :: m

/-- `namespaces_.find(ns)`: `none` when the key is absent, otherwise the
stored (possibly null) scene-node pointer. -/
def nsFind (m : NsMap) (k : String) : Option (Option Nat) :=
  (m.find? (fun p => p.1 = k)).map (fun p => p.2)

/-- Overwrite the value stored under a key (`ns_it->second = ...`). -/
def nsSet (m : NsMap) (k : String) (v : Option Nat) : NsMap :=
  m.map (fun p => if p.1 = k then (p.1, v) else p)

/-- The `MarkerVisualization` object state: the `markers_` vector and the
`namespaces_` map. -/
structure MarkerVis where
  markers : List MarkerData
  namespaces : NsMap
deriving Repr

/-- The constructor loop (lines 86-96), threading the `ROS_WARN_ONCE`
flag: each input marker is copied, reconciled by `toPlanningFrame`;
dropped markers contribute nothing, kept ones are appended to `markers_`
with a nil handle and their namespace recorded in `namespaces_`. -/
def ctorLoop (scene : PlanningScene) :
    List Marker → Bool → List MarkerData × NsMap × Bool × List (String × String)
  | [], warned => ([], [], warned, [])
  | m :: rest, warned =>
    let r := toPlanningFrame m scene warned
    let t := ctorLoop scene rest r.2.1
    match r.1 with
    | none => (t.1, t.2.1, t.2.2.1, r.2.2 ++ t.2.2.2)
    | some m' => ((m', none) :: t.1, nsInsert t.2.1 m.ns, t.2.2.1, r.2.2 ++ t.2.2.2)

/-- `MarkerVisualization::MarkerVisualization` (lines 82-97): the
constructed object, the updated warn-once flag and the warnings
emitted. -/
def mkMarkerVis (markers : List Marker) (end_scene : PlanningScene) (warned : Bool) :
    MarkerVis × Bool × List (String × String) :=
  let (ms, ns, w, lgs) := ctorLoop end_scene markers warned
  ({ markers := ms, namespaces := ns }, w, lgs)

/-! ### Scene graph and visibility (lines 107-121) -/

/-- The slice of the Ogre scene graph the visibility code touches: each
node's parent pointer (`none` = detached).  Nodes are identified by
numbers. -/
structure SceneGraph where
  parent : Nat → Option Nat

/-- `Ogre::Node::addChild` (line 110): attaches `child` under `parent`;
Ogre raises an exception when the child already has a parent, modelled by
`none`. -/
def addChild (g : SceneGraph) (parent child : Nat) : Option SceneGraph :=
  match g.parent child with
  | some _ => none
  | none => some ⟨fun n => if n = child then some parent else g.parent n⟩

/-- `Ogre::Node::removeChild` (line 112): detaches `child` from its
parent. -/
def removeChild (g : SceneGraph) (child : Nat) : SceneGraph :=
  ⟨fun n => if n = child then none else g.parent n⟩

/-- `setVisibility(node, parent, visible)` (lines 107-113).  `node` is an
`Ogre::SceneNode*`; when it is null (`none`) the first branch evaluates
`node->getParent()`, a null-pointer dereference, modelled as the fault
result `none`. -/
def setVisibility (node : Option Nat) (parent : Nat) (visible : Bool)
    (g : SceneGraph) : Option SceneGraph :=
  match node with
  | none => none
  | some n =>
    if visible ∧ g.parent n ≠ some parent then addChild g parent n
    else if ¬ visible ∧ (g.parent n).isSome then some (removeChild g n)
    else some g

/-- `MarkerVisualization::setVisible` (lines 115-121): looks the namespace
up in `namespaces_`; absent key is an early return, otherwise the stored
(possibly null) grouping node is passed to `setVisibility`. -/
def MarkerVis.setVisible (mv : MarkerVis) (ns : String) (parent : Nat)
    (visible : Bool) (g : SceneGraph) : Option SceneGraph :=
  match nsFind mv.namespaces ns with
  | none => some g
  | some node => setVisibility node parent visible g

/-! ### Lazy materialization, `createMarkers` (lines 123-161) -/

/-- The display-context services `createMarkers` consumes: the viewer's
fixed frame, `tf::TransformListener::lookupTransform(target, source)`
(whose failure — a thrown `tf::TransformException` — is `none`), and the
position / orientation `rviz::MarkerBase::setMessage` leaves on a fresh
handle (backend behaviour, relative to the fixed frame). -/
structure DisplayContext where
  fixedFrame : String
  lookupTransform : String → String → Option (Quat × Vec3)
  initPose : Marker → Quat × Vec3

/-- How a `createMarkers` call can abort: a `tf::TransformException`
thrown by the lookup at line 149 and not caught (`tfFail`), or the
undefined behaviour of dereferencing `namespaces_.end()` when a marker's
namespace is missing from the map (`nsMissing`, the situation
`Q_ASSERT`ed against at line 133). -/
inductive CMErr where
  | tfFail
  | nsMissing
deriving DecidableEq, Repr

/-- The loop-local state of `createMarkers`: the `namespaces_` map (nodes
get created into it), the `planning_frame` local (initially the empty
string), the cached `quat` / `pos` (Ogre defaults before the lookup), a
fresh-node counter standing in for `createSceneNode`, and the number of
tf lookups performed so far. -/
structure CMState where
  namespaces : NsMap
  planning_frame : String
  quat : Quat
  pos : Vec3
  nodeCtr : Nat
  lookups : Nat

/-- Lines 132-135: look the entry's namespace up in `namespaces_`
(`Q_ASSERT`ed present; an absent key dereferences the end iterator,
returned as the fault `none`) and create the grouping scene node when the
stored pointer is still null. -/
def ensureNode (st : CMState) (ns : String) : Option (Nat × CMState) :=
  match nsFind st.namespaces ns with
  | none => none
  | some (some n) => some (n, st)
  | some none =>
    some (st.nodeCtr,
          { st with
              namespaces := nsSet st.namespaces ns (some st.nodeCtr),
              nodeCtr := st.nodeCtr + 1 })

/-- The `createMarkers` loop (lines 129-160).  Entries with a handle are
skipped; otherwise the namespace grouping node is created on demand, the
type switch may yield no handle (`nullptr`, entry left empty), and a
created handle is initialized by `setMessage` and then re-aligned by the
cached fixed-frame-to-planning-frame rotation / translation, which is
fetched on the first created handle (while `planning_frame` is still
empty).  A lookup failure is a C++ exception: the current entry keeps its
just-created, still-unaligned handle, the rest of the list is untouched,
and the error propagates. -/
def cmLoop (ctx : DisplayContext) :
    List MarkerData → CMState → List MarkerData × CMState × Option CMErr
  | [], st => ([], st, none)
  | (m, some h) :: rest, st =>
    let t := cmLoop ctx rest st
    ((m, some h) :: t.1, t.2.1, t.2.2)
  | (m, none) :: rest, st =>
    match ensureNode st m.ns with
    | none => ((m, none) :: rest, st, some .nsMissing)
    | some ns1 =>
        let node := ns1.1
        let st1 := ns1.2
        match createMarker m.type with
        | none => -- ROS_ERROR("Unknown marker type"), entry stays empty
          let t := cmLoop ctx rest st1
          ((m, none) :: t.1, t.2.1, t.2.2)
        | some k =>
          let o0 := (ctx.initPose m).1
          let p0 := (ctx.initPose m).2
          if st1.planning_frame = "" then
            let st2 := { st1 with
                           planning_frame := m.frame_id,
                           lookups := st1.lookups + 1 }
            match ctx.lookupTransform ctx.fixedFrame m.frame_id with
            | none =>
              ((m, some ⟨k, node, m, o0, p0⟩) :: rest, st2, some .tfFail)
            | some qp =>
              let st3 := { st2 with quat := qconj qp.1, pos := qp.2 }
              let h : Handle :=
                ⟨k, node, m, qmul st3.quat o0, qrot st3.quat (vsub p0 st3.pos)⟩
              let t := cmLoop ctx rest st3
              ((m, some h) :: t.1, t.2.1, t.2.2)
          else
            let h : Handle :=
              ⟨k, node, m, qmul st1.quat o0, qrot st1.quat (vsub p0 st1.pos)⟩
            let t := cmLoop ctx rest st1
            ((m, some h) :: t.1, t.2.1, t.2.2)

/-- Result of a `createMarkers` call: the updated object, the node
counter, how many tf lookups the call performed, and whether an error
escaped. -/
structure CMResult where
  vis : MarkerVis
  nodeCtr : Nat
  lookups : Nat
  err : Option CMErr
deriving Repr

/-- `MarkerVisualization::createMarkers` (lines 123-161).  `planning_frame`
starts empty; `quat` / `pos` carry the Ogre default values until the
single lookup fills them. -/
def MarkerVis.createMarkers (mv : MarkerVis) (ctx : DisplayContext)
    (nodeCtr : Nat) : CMResult :=
  let st0 : CMState := ⟨mv.namespaces, "", ⟨1, 0, 0, 0⟩, ⟨0, 0, 0⟩, nodeCtr, 0⟩
  let (ms, st, err) := cmLoop ctx mv.markers st0
  ⟨⟨ms, st.namespaces⟩, st.nodeCtr, st.lookups, err⟩

/-! ### The constructor over an explicit store (aliasing, lines 86-93) -/

/-- A store of `visualization_msgs::Marker` messages, addressed by
numbers, with an allocation frontier: every address `≥ next` is free.
Models the heap on which `data.first.reset(new Marker(marker))`
allocates. -/
structure Store where
  mem : Nat → Marker
  next : Nat

/-- Write one address of a store. -/
def storeWrite (s : Store) (a : Nat) (m : Marker) : Store :=
  ⟨fun n => if n = a then m else s.mem n, s.next⟩

/-- The constructor loop over the store: the caller's markers live at
`addrs`; each is deep-copied to a fresh address
(`new visualization_msgs::Marker(marker)`, line 89) and `toPlanningFrame`
then mutates the copy in place (line 91).  Returns the final store, the
addresses of the kept copies, and the warn-once flag. -/
def ctorHeap (scene : PlanningScene) :
    List Nat → Store → Bool → Store × List Nat × Bool
  | [], s, w => (s, [], w)
  | a :: rest, s, w =>
    let fresh := s.next
    let s1 : Store := ⟨fun n => if n = fresh then s.mem a else s.mem n, s.next + 1⟩
    -- the copy at `fresh` holds the value `s.mem a`; `toPlanningFrame`
    -- works on that value and its result is written back to `fresh`
    let r := toPlanningFrame (s.mem a) scene w
    match r.1 with
    | none => ctorHeap scene rest s1 r.2.1
    | some m' =>
      let s2 := storeWrite s1 fresh m'
      let t := ctorHeap scene rest s2 r.2.1
      (t.1, fresh :: t.2.1, t.2.2)

/-! ### Concrete instances used to exercise the definitions -/

/-- Identity quaternion (the `Ogre::Quaternion` default value). -/
def qId : Quat := ⟨1, 0, 0, 0⟩

/-- Zero vector. -/
def vZero : Vec3 := ⟨0, 0, 0⟩

/-- Identity rigid transform. -/
def affId : Aff := ⟨qId, vZero⟩

/-- A sample non-identity rigid transform (half-turn about x plus a
translation). -/
def affBase : Aff := ⟨⟨0, 1, 0, 0⟩, ⟨1, 2, 3⟩⟩

/-- A snapshot whose planning frame is `"map"` and which additionally
knows the frame `"base"`, with `affBase` as every known transform. -/
def sceneA : PlanningScene :=
  ⟨"map", fun s => s == "map" || s == "base", fun _ => affBase⟩

/-- A marker already expressed in the planning frame. -/
def mMap : Marker := ⟨"map", "traj", affId, 1, 0⟩

/-- A marker in the known non-planning frame `"base"`. -/
def mBase : Marker := ⟨"base", "traj", ⟨qId, ⟨5, 0, 0⟩⟩, 2, 1⟩

/-- A marker in a frame the snapshot does not know. -/
def mUnk1 : Marker := ⟨"f1", "traj", affId, 1, 2⟩

/-- A marker in a second unknown frame, same namespace. -/
def mUnk2 : Marker := ⟨"f2", "traj", affId, 1, 3⟩

/-- A display context whose transform lookup succeeds with a fixed
rotation / translation. -/
def ctxOk : DisplayContext :=
  ⟨"odom", fun _ _ => some (⟨0, 1, 0, 0⟩, ⟨1, 1, 1⟩),
   fun m => (qId, ⟨(m.payload : ℚ), 0, 0⟩)⟩

/-- A display context whose transform lookup always fails (the modelled
`tf::TransformException`). -/
def ctxFail : DisplayContext := ⟨"odom", fun _ _ => none, fun _ => (qId, vZero)⟩

/-- A set holding one not-yet-materialized marker. -/
def mvPend : MarkerVis := ⟨[(mMap, none)], [("traj", none)]⟩

/-- A set whose single marker already carries a handle. -/
def mvDone : MarkerVis := ⟨[(mMap, some ⟨.shape, 7, mMap, qId, vZero⟩)], [("traj", some 7)]⟩

/-- A set whose namespace map holds a namespace with a null grouping
node (the state every namespace is in right after construction). -/
def mvNullNode : MarkerVis := ⟨[], [("traj", none)]⟩

/-- The empty scene graph: every node detached. -/
def g0 : SceneGraph := ⟨fun _ => none⟩

/-- A concrete store whose address 0 is allocated and holds `mBase`. -/
def store0 : Store := ⟨fun _ => mBase, 1⟩

/-! ### Helper lemmas on `toPlanningFrame` -/

theorem toPlanningFrame_planning (m : Marker) (scene : PlanningScene) (w : Bool)
    (h : m.frame_id = scene.planningFrame) :
    toPlanningFrame m scene w = (some m, w, []) := by
  simp [toPlanningFrame, h]

theorem toPlanningFrame_known (m : Marker) (scene : PlanningScene) (w : Bool)
    (h1 : m.frame_id ≠ scene.planningFrame)
    (h2 : scene.knows m.frame_id = true) :
    toPlanningFrame m scene w =
      (some { m with pose := affMul (scene.frameTransform m.frame_id) m.pose,
                     frame_id := scene.planningFrame }, w, []) := by
  simp [toPlanningFrame, h1, h2]

theorem toPlanningFrame_some_frame (m : Marker) (scene : PlanningScene) (w : Bool)
    (m' : Marker) (h : (toPlanningFrame m scene w).1 = some m') :
    m'.frame_id = scene.planningFrame := by
  unfold toPlanningFrame at h
  split_ifs at h with h1 h2 h3
  · replace h : some m = some m' := h
    injection h with h
    subst h
    exact h1
  · replace h : some { m with pose := affMul (scene.frameTransform m.frame_id) m.pose,
                              frame_id := scene.planningFrame } = some m' := h
    injection h with h
    subst h
    rfl

theorem toPlanningFrame_none_iff (m : Marker) (scene : PlanningScene) (w : Bool) :
    (toPlanningFrame m scene w).1 = none ↔
      (m.frame_id ≠ scene.planningFrame ∧ scene.knows m.frame_id = false) := by
  unfold toPlanningFrame
  split_ifs with h1 h2 h3 <;> simp_all

theorem ctorLoop_frames (scene : PlanningScene) :
    ∀ (l : List Marker) (w : Bool) (md : MarkerData),
      md ∈ (ctorLoop scene l w).1 → md.1.frame_id = scene.planningFrame := by
  intro l
  induction l with
  | nil => intro w md hmd; simp [ctorLoop] at hmd
  | cons m rest ih =>
    intro w md hmd
    simp only [ctorLoop] at hmd
    cases htp : (toPlanningFrame m scene w).1 with
    | none =>
      rw [htp] at hmd
      exact ih _ md hmd
    | some m' =>
      rw [htp] at hmd
      rcases List.mem_cons.mp hmd with h | h
      · subst h
        exact toPlanningFrame_some_frame m scene w m' htp
      · exact ih _ md h

theorem toPlanningFrame_some_knows (m : Marker) (scene : PlanningScene) (w : Bool)
    (hpf : scene.knows scene.planningFrame = true) (m' : Marker)
    (h : (toPlanningFrame m scene w).1 = some m') :
    scene.knows m.frame_id = true := by
  by_cases h1 : m.frame_id = scene.planningFrame
  · rw [h1]; exact hpf
  · by_cases h2 : scene.knows m.frame_id = true
    · exact h2
    · rw [(toPlanningFrame_none_iff m scene w).mpr
        ⟨h1, Bool.not_eq_true _ ▸ h2⟩] at h
      exact Option.noConfusion h

theorem ctorLoop_length (scene : PlanningScene)
    (hpf : scene.knows scene.planningFrame = true) :
    ∀ (l : List Marker) (w : Bool),
      (ctorLoop scene l w).1.length
          + (l.filter (fun m => !(scene.knows m.frame_id))).length = l.length := by
  intro l
  induction l with
  | nil => intro w; simp [ctorLoop]
  | cons m rest ih =>
    intro w
    simp only [ctorLoop, List.filter, List.length_cons]
    cases htp : (toPlanningFrame m scene w).1 with
    | none =>
      obtain ⟨h1, h2⟩ := (toPlanningFrame_none_iff m scene w).mp htp
      rw [h2]
      have := ih ((toPlanningFrame m scene w).2.1)
      simp only [Bool.not_false, if_pos, List.length_cons]
      omega
    | some m' =>
      rw [toPlanningFrame_some_knows m scene w hpf m' htp]
      have := ih ((toPlanningFrame m scene w).2.1)
      simp only [Bool.not_true, List.length_cons]
      omega

/-! ### Claim theorems about construction -/

/-- C2: every marker stored by the `MarkerVisualization` constructor has
its `header.frame_id` equal to the end scene's planning frame: markers
already in the planning frame are kept as they are, markers in a known
other frame are rewritten to it by `toPlanningFrame`, and markers whose
frame is unknown are dropped, so no stored marker carries a stale
frame. -/
theorem c2_stored_frames_are_planning (markers : List Marker)
    (end_scene : PlanningScene) (warned : Bool) :
    ∀ md ∈ (mkMarkerVis markers end_scene warned).1.markers,
      md.1.frame_id = end_scene.planningFrame := by
  intro md hmd
  exact ctorLoop_frames end_scene markers warned md hmd

/-- C3: provided the snapshot knows its own planning frame (as a real
`PlanningScene` does), the constructed set's size equals the input count
minus exactly the number of markers whose declared frame is unknown to
the snapshot, and no stored marker has an unknown frame — so
unknown-frame markers never appear in the set. -/
theorem c3_unknown_frame_markers_dropped (markers : List Marker)
    (end_scene : PlanningScene) (warned : Bool)
    (hpf : end_scene.knows end_scene.planningFrame = true) :
    (mkMarkerVis markers end_scene warned).1.markers.length
        = markers.length
            - (markers.filter (fun m => !(end_scene.knows m.frame_id))).length
    ∧ ∀ md ∈ (mkMarkerVis markers end_scene warned).1.markers,
        end_scene.knows md.1.frame_id = true := by
  constructor
  · have h := ctorLoop_length end_scene hpf markers warned
    simp only [mkMarkerVis]
    omega
  · intro md hmd
    rw [ctorLoop_frames end_scene markers warned md hmd]
    exact hpf

/-- C3 witness: the spec's own scenario — three markers, one already in
the planning frame `"map"`, one in the known frame `"base"`, one in the
unknown frame `"f1"` — yields a two-marker set, and every stored marker
is in a known frame. -/
theorem c3_unknown_frame_markers_dropped_witness :
    (mkMarkerVis [mMap, mBase, mUnk1] sceneA false).1.markers.length
        = 3 - ([mMap, mBase, mUnk1].filter
                 (fun m => !(sceneA.knows m.frame_id))).length :=
  (c3_unknown_frame_markers_dropped [mMap, mBase, mUnk1] sceneA false (by decide)).1

/-- C1: an input marker whose declared frame `F` differs from the
planning frame but is known to the end scene is kept in the constructed
set with its pose replaced by the composition
`getFrameTransform(F) ∘ original_pose` and its frame field rewritten to
the planning frame (and the lazily-filled handle still nil). -/
theorem c1_known_frame_marker_transformed (markers : List Marker)
    (end_scene : PlanningScene) (warned : Bool) (m : Marker)
    (hmem : m ∈ markers)
    (hne : m.frame_id ≠ end_scene.planningFrame)
    (hknows : end_scene.knows m.frame_id = true) :
    ({ m with pose := affMul (end_scene.frameTransform m.frame_id) m.pose,
              frame_id := end_scene.planningFrame }, (none : Option Handle))
      ∈ (mkMarkerVis markers end_scene warned).1.markers := by
  suffices h : ∀ (l : List Marker) (w : Bool), m ∈ l →
      ({ m with pose := affMul (end_scene.frameTransform m.frame_id) m.pose,
                frame_id := end_scene.planningFrame }, (none : Option Handle))
        ∈ (ctorLoop end_scene l w).1 by
    exact h markers warned hmem
  intro l
  induction l with
  | nil => intro w h; simp at h
  | cons hd rest ih =>
    intro w hmem'
    simp only [ctorLoop]
    rcases List.mem_cons.mp hmem' with he | ht
    · subst he
      rw [toPlanningFrame_known m end_scene w hne hknows]
      exact List.mem_cons_self _ _
    · cases htp : (toPlanningFrame hd end_scene w).1 with
      | none => exact ih _ ht
      | some m' => exact List.mem_cons_of_mem _ (ih _ ht)

/-- C2 witness: in the concrete three-marker construction the stored
entry `(mMap, none)` indeed carries the planning frame `"map"`. -/
theorem c2_stored_frames_are_planning_witness :
    (mMap, (none : Option Handle)).1.frame_id = sceneA.planningFrame :=
  c2_stored_frames_are_planning [mMap, mBase, mUnk1] sceneA false
    (mMap, none) (by decide)

/-- C1 witness: the marker in the known frame `"base"` appears in the
concrete construction with pose `affBase ∘ original` and frame
`"map"`. -/
theorem c1_known_frame_marker_transformed_witness :
    ({ mBase with pose := affMul (sceneA.frameTransform mBase.frame_id) mBase.pose,
                  frame_id := sceneA.planningFrame }, (none : Option Handle))
      ∈ (mkMarkerVis [mMap, mBase, mUnk1] sceneA false).1.markers :=
  c1_known_frame_marker_transformed [mMap, mBase, mUnk1] sceneA false mBase
    (by decide) (by decide) (by decide)

/-! ### Warn-once bookkeeping (C8) -/

theorem toPlanningFrame_some_snd (m : Marker) (scene : PlanningScene) (w : Bool)
    (m' : Marker) (h : (toPlanningFrame m scene w).1 = some m') :
    (toPlanningFrame m scene w).2 = (w, []) := by
  unfold toPlanningFrame at h ⊢
  split_ifs at h ⊢ <;> rfl

theorem toPlanningFrame_none_snd (m : Marker) (scene : PlanningScene) (w : Bool)
    (h : (toPlanningFrame m scene w).1 = none) :
    (toPlanningFrame m scene w).2
      = (true, if w then [] else [(m.frame_id, m.ns)]) := by
  unfold toPlanningFrame at h ⊢
  split_ifs at h ⊢ <;> simp_all

theorem ctorLoop_logs (scene : PlanningScene) :
    ∀ (l : List Marker) (w : Bool),
      (w = true → (ctorLoop scene l w).2.2.2 = [])
      ∧ (ctorLoop scene l w).2.2.2.length ≤ 1
      ∧ (w = false →
          ((ctorLoop scene l w).2.2.2 ≠ [] ↔
            ∃ m ∈ l, m.frame_id ≠ scene.planningFrame
              ∧ scene.knows m.frame_id = false)) := by
  intro l
  induction l with
  | nil =>
    intro w
    refine ⟨fun _ => rfl, by simp [ctorLoop], fun _ => ?_⟩
    simp [ctorLoop]
  | cons m rest ih =>
    intro w
    simp only [ctorLoop]
    cases htp : (toPlanningFrame m scene w).1 with
    | some m' =>
      have hsnd := toPlanningFrame_some_snd m scene w m' htp
      have hkept := (not_iff_not.mpr (toPlanningFrame_none_iff m scene w)).mp
        (by simp [htp])
      rw [hsnd]
      obtain ⟨ih1, ih2, ih3⟩ := ih w
      refine ⟨fun hw => by simpa using ih1 hw, by simpa using ih2, fun hw => ?_⟩
      have := ih3 hw
      simp only [List.nil_append]
      rw [this]
      constructor
      · intro ⟨x, hx, hd⟩
        exact ⟨x, List.mem_cons_of_mem _ hx, hd⟩
      · intro ⟨x, hx, hd⟩
        rcases List.mem_cons.mp hx with he | ht
        · subst he
          exact absurd hd hkept
        · exact ⟨x, ht, hd⟩
    | none =>
      have hsnd := toPlanningFrame_none_snd m scene w htp
      have hdrop := (toPlanningFrame_none_iff m scene w).mp htp
      rw [hsnd]
      obtain ⟨ih1, ih2, ih3⟩ := ih true
      cases w with
      | true =>
        simp only [if_pos rfl, List.nil_append]
        exact ⟨fun _ => ih1 rfl, by simpa using ih2, fun hw => by cases hw⟩
      | false =>
        simp only [if_neg (Bool.false_ne_true), List.singleton_append]
        rw [ih1 rfl]
        refine ⟨?_, ?_, ?_⟩
        · intro hw
          exact absurd hw (by decide)
        · simp
        · intro _
          simp only [ne_eq, List.cons_ne_nil, not_false_eq_true, true_iff]
          exact ⟨m, List.mem_cons_self _ _, hdrop⟩

/-- C8 counterexample: constructing from two markers in two distinct
unknown frames (`"f1"` and `"f2"`, both namespace `"traj"`) with the
warn-once flag clear drops both markers but emits a single warning — for
`("f1", "traj")` only, none for `("f2", "traj")` — because
`ROS_WARN_ONCE` fires once per call site, not once per distinct
(frame, namespace) pair. -/
theorem c8_counterexample :
    (mkMarkerVis [mUnk1, mUnk2] sceneA false).1.markers = []
    ∧ (mkMarkerVis [mUnk1, mUnk2] sceneA false).2.2 = [("f1", "traj")] := by
  decide

/-- C8 (amended): the unknown-frame warning is emitted at most once per
process, not once per distinct (frame, namespace) pair: a construction
run emits at most one warning, none at all when the call-site flag is
already set, and — flag clear — exactly one warning iff at least one
marker is dropped for an unknown frame. -/
theorem c8_amended_warn_once (markers : List Marker)
    (end_scene : PlanningScene) (warned : Bool) :
    (mkMarkerVis markers end_scene warned).2.2.length ≤ 1
    ∧ (warned = true → (mkMarkerVis markers end_scene warned).2.2 = [])
    ∧ (warned = false →
        ((mkMarkerVis markers end_scene warned).2.2 ≠ [] ↔
          ∃ m ∈ markers, m.frame_id ≠ end_scene.planningFrame
            ∧ end_scene.knows m.frame_id = false)) := by
  obtain ⟨h1, h2, h3⟩ := ctorLoop_logs end_scene markers warned
  exact ⟨h2, h1, h3⟩

/-- C8 witness: with the call-site flag already set, the same
construction that drops two markers emits no warning at all. -/
theorem c8_amended_warn_once_witness :
    (mkMarkerVis [mUnk1, mUnk2] sceneA true).2.2 = [] :=
  (c8_amended_warn_once [mUnk1, mUnk2] sceneA true).2.1 rfl

/-! ### Deep copy and the caller's markers (C10) -/

theorem ctorHeap_mem_lt (scene : PlanningScene) :
    ∀ (addrs : List Nat) (s : Store) (w : Bool) (n : Nat), n < s.next →
      ((ctorHeap scene addrs s w).1).mem n = s.mem n := by
  intro addrs
  induction addrs with
  | nil => intro s w n _; rfl
  | cons a rest ih =>
    intro s w n h
    simp only [ctorHeap]
    cases htp : (toPlanningFrame (s.mem a) scene w).1 with
    | none =>
      refine (ih _ _ n (Nat.lt_succ_of_lt h)).trans ?_
      show (if n = s.next then s.mem a else s.mem n) = s.mem n
      rw [if_neg (by omega)]
    | some m' =>
      refine (ih _ _ n (Nat.lt_succ_of_lt h)).trans ?_
      show (if n = s.next then m'
            else if n = s.next then s.mem a else s.mem n) = s.mem n
      rw [if_neg (by omega), if_neg (by omega)]

/-- C10: the constructor deep-copies every input marker before
reconciliation (`data.first.reset(new visualization_msgs::Marker(marker))`):
the caller's marker sequence — every allocated address passed in — is
unchanged by construction, including the pose and frame fields of markers
that get rewritten into the planning frame inside the set; only the fresh
copies are mutated. -/
theorem c10_input_markers_unchanged (scene : PlanningScene) (addrs : List Nat)
    (s : Store) (w : Bool) (a : Nat) (ha : a ∈ addrs) (hlt : a < s.next) :
    ((ctorHeap scene addrs s w).1).mem a = s.mem a :=
  ctorHeap_mem_lt scene addrs s w a hlt

/-- C10 witness: a store holding `mBase` (a marker `sceneA` rewrites into
the planning frame) at address 0 still holds the original marker at
address 0 after construction. -/
theorem c10_input_markers_unchanged_witness :
    ((ctorHeap sceneA [0] store0 false).1).mem 0 = store0.mem 0 :=
  c10_input_markers_unchanged sceneA [0] store0 false 0 (by decide) (by decide)

/-! ### Visibility (C6) -/

/-- C6 counterexample: a namespace present in the map whose grouping node
was never created (null) — the state every namespace is in right after
construction — makes `setVisible` pass the null node to `setVisibility`,
which dereferences it (`node->getParent()`), modelled as the fault
`none`: not a state-preserving no-op as claimed. -/
theorem c6_counterexample :
    mvNullNode.setVisible "traj" 0 true g0 = none := rfl

/-- C6 (amended): `setVisible` is a safe no-op only when the namespace
has no entry in `namespaces_` at all (early return); when the entry
exists but its grouping node is null, the call dereferences the null
node inside `setVisibility` — a fault, not a no-op. -/
theorem c6_amended_absent_namespace_noop (mv : MarkerVis) (ns : String)
    (parent : Nat) (visible : Bool) (g : SceneGraph) :
    (nsFind mv.namespaces ns = none →
      mv.setVisible ns parent visible g = some g)
    ∧ (nsFind mv.namespaces ns = some none →
      mv.setVisible ns parent visible g = none) := by
  constructor
  · intro h
    simp [MarkerVis.setVisible, h]
  · intro h
    simp [MarkerVis.setVisible, h, setVisibility]

/-- C6 witness: on concrete states, an absent namespace leaves the scene
graph untouched, and a null-node namespace faults. -/
theorem c6_amended_absent_namespace_noop_witness :
    mvNullNode.setVisible "other" 1 true g0 = some g0
    ∧ mvNullNode.setVisible "traj" 1 false g0 = none :=
  ⟨(c6_amended_absent_namespace_noop mvNullNode "other" 1 true g0).1 rfl,
   (c6_amended_absent_namespace_noop mvNullNode "traj" 1 false g0).2 rfl⟩

/-! ### Helper lemmas on the `createMarkers` loop -/

theorem nsFind_nsSet (m : NsMap) (k k' : String) (v : Option Nat) :
    nsFind (nsSet m k v) k'
      = (nsFind m k').map (fun old => if k' = k then v else old) := by
  induction m with
  | nil => rfl
  | cons p rest ih =>
    simp only [nsSet, nsFind, List.map_cons] at ih ⊢
    by_cases hpk : p.1 = k <;> by_cases hpk' : p.1 = k' <;>
      simp [List.find?_cons, hpk, hpk', ih] <;> simp_all <;>
      exact ⟨p.1, rfl⟩

theorem ensureNode_spec (st : CMState) (ns : String) (r : Nat × CMState)
    (h : ensureNode st ns = some r) :
    r.2.planning_frame = st.planning_frame ∧ r.2.quat = st.quat
    ∧ r.2.pos = st.pos ∧ r.2.lookups = st.lookups
    ∧ ∀ k, (nsFind r.2.namespaces k).isSome = (nsFind st.namespaces k).isSome := by
  unfold ensureNode at h
  cases hf : nsFind st.namespaces ns with
  | none => rw [hf] at h; exact Option.noConfusion h
  | some v =>
    rw [hf] at h
    cases v with
    | some n =>
      injection h with h
      subst h
      exact ⟨rfl, rfl, rfl, rfl, fun k => rfl⟩
    | none =>
      injection h with h
      subst h
      refine ⟨rfl, rfl, rfl, rfl, fun k => ?_⟩
      rw [nsFind_nsSet]
      cases nsFind st.namespaces k <;> rfl

theorem ensureNode_isSome (st : CMState) (ns : String)
    (h : (nsFind st.namespaces ns).isSome = true) :
    ∃ r, ensureNode st ns = some r := by
  unfold ensureNode
  cases hf : nsFind st.namespaces ns with
  | none => rw [hf] at h; exact absurd h (by simp)
  | some v => cases v <;> exact ⟨_, rfl⟩

theorem cmLoop_all_handled (ctx : DisplayContext) :
    ∀ (l : List MarkerData) (st : CMState),
      (∀ md ∈ l, md.2.isSome = true) → cmLoop ctx l st = (l, st, none) := by
  intro l
  induction l with
  | nil => intro st _; rfl
  | cons md rest ih =>
    intro st hall
    obtain ⟨m, h⟩ := md
    cases h with
    | none =>
      exact absurd (hall (m, none) (List.mem_cons_self _ _)) (by simp)
    | some hdl =>
      simp only [cmLoop]
      rw [ih st (fun x hx => hall x (List.mem_cons_of_mem _ hx))]

theorem cmLoop_preserves_handled (ctx : DisplayContext) :
    ∀ (l : List MarkerData) (st : CMState) (i : Nat) (m : Marker) (h : Handle),
      l.get? i = some (m, some h) →
      ((cmLoop ctx l st).1).get? i = some (m, some h) := by
  intro l
  induction l with
  | nil => intro st i m h hi; simp at hi
  | cons md rest ih =>
    intro st i m h hi
    obtain ⟨m0, h0⟩ := md
    cases h0 with
    | some hdl =>
      simp only [cmLoop]
      cases i with
      | zero => simpa using hi
      | succ j =>
        simp only [List.get?_cons_succ] at hi ⊢
        exact ih st j m h hi
    | none =>
      simp only [cmLoop]
      cases hens : ensureNode st m0.ns with
      | none =>
        cases i with
        | zero => simp at hi
        | succ j => simpa using hi
      | some r1 =>
        cases hcm : createMarker m0.type with
        | none =>
          cases i with
          | zero => simp at hi
          | succ j =>
            simp only [List.get?_cons_succ] at hi ⊢
            exact ih _ j m h hi
        | some k =>
          by_cases hpf : r1.2.planning_frame = ""
          · simp only [hpf, ↓reduceIte]
            cases hlk : ctx.lookupTransform ctx.fixedFrame m0.frame_id with
            | none =>
              cases i with
              | zero => simp at hi
              | succ j => simpa using hi
            | some qp =>
              cases i with
              | zero => simp at hi
              | succ j =>
                simp only [List.get?_cons_succ] at hi ⊢
                exact ih _ j m h hi
          · simp only [hpf, ↓reduceIte]
            cases i with
            | zero => simp at hi
            | succ j =>
              simp only [List.get?_cons_succ] at hi ⊢
              exact ih _ j m h hi

theorem cmLoop_complete (ctx : DisplayContext) :
    ∀ (l : List MarkerData) (st : CMState),
      (cmLoop ctx l st).2.2 = none →
      (∀ md ∈ l, createMarker md.1.type ≠ none) →
      ∀ md ∈ (cmLoop ctx l st).1, md.2.isSome = true := by
  intro l
  induction l with
  | nil => intro st _ _ md hmd; simp [cmLoop] at hmd
  | cons md0 rest ih =>
    intro st herr htype md hmd
    obtain ⟨m0, h0⟩ := md0
    have htype' : ∀ x ∈ rest, createMarker x.1.type ≠ none :=
      fun x hx => htype x (List.mem_cons_of_mem _ hx)
    cases h0 with
    | some hdl =>
      simp only [cmLoop] at herr hmd
      rcases List.mem_cons.mp hmd with he | ht
      · subst he; rfl
      · exact ih st herr htype' md ht
    | none =>
      simp only [cmLoop] at herr hmd
      cases hens : ensureNode st m0.ns with
      | none =>
        rw [hens] at herr
        exact absurd herr (by simp)
      | some r1 =>
        simp only [hens] at herr hmd
        cases hcm : createMarker m0.type with
        | none => exact absurd hcm (htype (m0, none) (List.mem_cons_self _ _))
        | some k =>
          simp only [hcm] at herr hmd
          by_cases hpf : r1.2.planning_frame = ""
          · simp only [hpf, ↓reduceIte] at herr hmd
            cases hlk : ctx.lookupTransform ctx.fixedFrame m0.frame_id with
            | none =>
              rw [hlk] at herr
              exact absurd herr (by simp)
            | some qp =>
              simp only [hlk] at herr hmd
              rcases List.mem_cons.mp hmd with he | ht
              · subst he; rfl
              · exact ih _ herr htype' md ht
          · simp only [hpf, ↓reduceIte] at herr hmd
            rcases List.mem_cons.mp hmd with he | ht
            · subst he; rfl
            · exact ih _ herr htype' md ht

theorem cmLoop_lookups (ctx : DisplayContext) :
    ∀ (l : List MarkerData) (st : CMState),
      (∀ md ∈ l, md.1.frame_id ≠ "") →
      ((cmLoop ctx l st).2.1.lookups ≤ st.lookups + 1
       ∧ (st.planning_frame ≠ "" →
            (cmLoop ctx l st).2.1.lookups = st.lookups)) := by
  intro l
  induction l with
  | nil => intro st _; exact ⟨Nat.le_succ _, fun _ => rfl⟩
  | cons md0 rest ih =>
    intro st hfr
    obtain ⟨m0, h0⟩ := md0
    have hfr' : ∀ x ∈ rest, x.1.frame_id ≠ "" :=
      fun x hx => hfr x (List.mem_cons_of_mem _ hx)
    cases h0 with
    | some hdl =>
      simp only [cmLoop]
      exact ih st hfr'
    | none =>
      simp only [cmLoop]
      cases hens : ensureNode st m0.ns with
      | none => exact ⟨Nat.le_succ _, fun _ => rfl⟩
      | some r1 =>
        obtain ⟨hepf, _, _, helk, _⟩ := ensureNode_spec st m0.ns r1 hens
        cases hcm : createMarker m0.type with
        | none =>
          obtain ⟨ih1, ih2⟩ := ih r1.2 hfr'
          constructor
          · show (cmLoop ctx rest r1.2).2.1.lookups ≤ st.lookups + 1
            omega
          · intro hne
            have h2 := ih2 (by rw [hepf]; exact hne)
            show (cmLoop ctx rest r1.2).2.1.lookups = st.lookups
            omega
        | some k =>
          by_cases hpf : r1.2.planning_frame = ""
          · simp only [hpf, ↓reduceIte]
            cases hlk : ctx.lookupTransform ctx.fixedFrame m0.frame_id with
            | none =>
              constructor
              · show r1.2.lookups + 1 ≤ st.lookups + 1
                omega
              · intro hne
                exact absurd hpf (by rw [hepf]; exact hne)
            | some qp =>
              have hm0 : m0.frame_id ≠ "" := hfr (m0, none) (List.mem_cons_self _ _)
              obtain ⟨ih1, ih2⟩ := ih
                { namespaces := r1.2.namespaces, planning_frame := m0.frame_id,
                  quat := qconj qp.1, pos := qp.2, nodeCtr := r1.2.nodeCtr,
                  lookups := r1.2.lookups + 1 } hfr'
              have h2 : (cmLoop ctx rest
                  { namespaces := r1.2.namespaces, planning_frame := m0.frame_id,
                    quat := qconj qp.1, pos := qp.2, nodeCtr := r1.2.nodeCtr,
                    lookups := r1.2.lookups + 1 }).2.1.lookups
                  = r1.2.lookups + 1 := ih2 hm0
              constructor
              · show (cmLoop ctx rest
                  { namespaces := r1.2.namespaces, planning_frame := m0.frame_id,
                    quat := qconj qp.1, pos := qp.2, nodeCtr := r1.2.nodeCtr,
                    lookups := r1.2.lookups + 1 }).2.1.lookups ≤ st.lookups + 1
                omega
              · intro hne
                exact absurd hpf (by rw [hepf]; exact hne)
          · simp only [hpf, ↓reduceIte]
            obtain ⟨ih1, ih2⟩ := ih r1.2 hfr'
            have h2 := ih2 hpf
            constructor
            · omega
            · intro _
              omega

theorem cmLoop_lookups_mono (ctx : DisplayContext) :
    ∀ (l : List MarkerData) (st : CMState),
      st.lookups ≤ (cmLoop ctx l st).2.1.lookups := by
  intro l
  induction l with
  | nil => intro st; exact Nat.le_refl _
  | cons md0 rest ih =>
    intro st
    obtain ⟨m0, h0⟩ := md0
    cases h0 with
    | some hdl =>
      simp only [cmLoop]
      exact ih st
    | none =>
      simp only [cmLoop]
      cases hens : ensureNode st m0.ns with
      | none => exact Nat.le_refl _
      | some r1 =>
        obtain ⟨hepf, _, _, helk, _⟩ := ensureNode_spec st m0.ns r1 hens
        cases hcm : createMarker m0.type with
        | none =>
          have h1 := ih r1.2
          show st.lookups ≤ (cmLoop ctx rest r1.2).2.1.lookups
          omega
        | some k =>
          by_cases hpf : r1.2.planning_frame = ""
          · simp only [hpf, ↓reduceIte]
            cases hlk : ctx.lookupTransform ctx.fixedFrame m0.frame_id with
            | none =>
              show st.lookups ≤ r1.2.lookups + 1
              omega
            | some qp =>
              have h1 : r1.2.lookups + 1
                  ≤ (cmLoop ctx rest
                      { namespaces := r1.2.namespaces, planning_frame := m0.frame_id,
                        quat := qconj qp.1, pos := qp.2, nodeCtr := r1.2.nodeCtr,
                        lookups := r1.2.lookups + 1 }).2.1.lookups :=
                ih { namespaces := r1.2.namespaces, planning_frame := m0.frame_id,
                     quat := qconj qp.1, pos := qp.2, nodeCtr := r1.2.nodeCtr,
                     lookups := r1.2.lookups + 1 }
              show st.lookups ≤ (cmLoop ctx rest
                  { namespaces := r1.2.namespaces, planning_frame := m0.frame_id,
                    quat := qconj qp.1, pos := qp.2, nodeCtr := r1.2.nodeCtr,
                    lookups := r1.2.lookups + 1 }).2.1.lookups
              omega
          · simp only [hpf, ↓reduceIte]
            have h1 := ih r1.2
            show st.lookups ≤ (cmLoop ctx rest r1.2).2.1.lookups
            omega

theorem cmLoop_handle_created_lookup (ctx : DisplayContext) :
    ∀ (l : List MarkerData) (st : CMState),
      st.planning_frame = "" →
      ∀ (i : Nat) (m : Marker) (h : Handle),
        l.get? i = some (m, none) →
        ((cmLoop ctx l st).1).get? i = some (m, some h) →
        st.lookups + 1 ≤ (cmLoop ctx l st).2.1.lookups := by
  intro l
  induction l with
  | nil => intro st _ i m h hi _; simp at hi
  | cons md0 rest ih =>
    intro st hpf0 i m h hi ho
    obtain ⟨m0, h0⟩ := md0
    cases h0 with
    | some hdl =>
      simp only [cmLoop] at ho ⊢
      cases i with
      | zero => simp at hi
      | succ j =>
        simp only [List.get?_cons_succ] at hi ho
        exact ih st hpf0 j m h hi ho
    | none =>
      simp only [cmLoop] at ho ⊢
      cases hens : ensureNode st m0.ns with
      | none =>
        simp only [hens] at ho
        cases i with
        | zero => simp at ho
        | succ j =>
          simp only [List.get?_cons_succ] at hi ho
          rw [hi] at ho
          simp at ho
      | some r1 =>
        obtain ⟨hepf, _, _, helk, _⟩ := ensureNode_spec st m0.ns r1 hens
        have hpf1 : r1.2.planning_frame = "" := by rw [hepf]; exact hpf0
        simp only [hens] at ho
        cases hcm : createMarker m0.type with
        | none =>
          simp only [hcm] at ho
          cases i with
          | zero => simp at ho
          | succ j =>
            simp only [List.get?_cons_succ] at hi ho
            have h1 := ih r1.2 hpf1 j m h hi ho
            show st.lookups + 1 ≤ (cmLoop ctx rest r1.2).2.1.lookups
            omega
        | some k =>
          simp only [hcm, hpf1, ↓reduceIte] at ho ⊢
          cases hlk : ctx.lookupTransform ctx.fixedFrame m0.frame_id with
          | none =>
            show st.lookups + 1 ≤ r1.2.lookups + 1
            omega
          | some qp =>
            have h1 : r1.2.lookups + 1
                ≤ (cmLoop ctx rest
                    { namespaces := r1.2.namespaces, planning_frame := m0.frame_id,
                      quat := qconj qp.1, pos := qp.2, nodeCtr := r1.2.nodeCtr,
                      lookups := r1.2.lookups + 1 }).2.1.lookups :=
              cmLoop_lookups_mono ctx rest
                { namespaces := r1.2.namespaces, planning_frame := m0.frame_id,
                  quat := qconj qp.1, pos := qp.2, nodeCtr := r1.2.nodeCtr,
                  lookups := r1.2.lookups + 1 }
            show st.lookups + 1 ≤ (cmLoop ctx rest
                { namespaces := r1.2.namespaces, planning_frame := m0.frame_id,
                  quat := qconj qp.1, pos := qp.2, nodeCtr := r1.2.nodeCtr,
                  lookups := r1.2.lookups + 1 }).2.1.lookups
            omega

theorem cmLoop_aligned (ctx : DisplayContext) (f : String) (q : Quat) (p : Vec3)
    (hlk : ctx.lookupTransform ctx.fixedFrame f = some (q, p)) :
    ∀ (l : List MarkerData) (st : CMState),
      (∀ md ∈ l, md.1.frame_id = f) →
      (∀ md ∈ l, (nsFind st.namespaces md.1.ns).isSome = true) →
      (st.planning_frame ≠ "" → st.quat = qconj q ∧ st.pos = p) →
      ∀ (i : Nat) (m : Marker) (k : MKind),
        l.get? i = some (m, none) → createMarker m.type = some k →
        ∃ nd, ((cmLoop ctx l st).1).get? i
          = some (m, some ⟨k, nd, m, qmul (qconj q) (ctx.initPose m).1,
                            qrot (qconj q) (vsub (ctx.initPose m).2 p)⟩) := by
  intro l
  induction l with
  | nil => intro st _ _ _ i m k hi _; simp at hi
  | cons md0 rest ih =>
    intro st hfr hns hinv i m k hi hk
    obtain ⟨m0, h0⟩ := md0
    have hfr' : ∀ x ∈ rest, x.1.frame_id = f :=
      fun x hx => hfr x (List.mem_cons_of_mem _ hx)
    cases h0 with
    | some hdl =>
      simp only [cmLoop]
      cases i with
      | zero => simp at hi
      | succ j =>
        simp only [List.get?_cons_succ] at hi ⊢
        exact ih st hfr' (fun x hx => hns x (List.mem_cons_of_mem _ hx)) hinv
          j m k hi hk
    | none =>
      simp only [cmLoop]
      have hns0 : (nsFind st.namespaces m0.ns).isSome = true :=
        hns (m0, none) (List.mem_cons_self _ _)
      obtain ⟨r1, hens⟩ := ensureNode_isSome st m0.ns hns0
      obtain ⟨hepf, hequat, hepos, _, hensns⟩ := ensureNode_spec st m0.ns r1 hens
      have hns' : ∀ x ∈ rest, (nsFind r1.2.namespaces x.1.ns).isSome = true := by
        intro x hx
        rw [hensns]
        exact hns x (List.mem_cons_of_mem _ hx)
      have hm0f : m0.frame_id = f := hfr (m0, none) (List.mem_cons_self _ _)
      simp only [hens]
      cases hcm : createMarker m0.type with
      | none =>
        have hinv' : r1.2.planning_frame ≠ "" →
            r1.2.quat = qconj q ∧ r1.2.pos = p := by
          intro hne
          rw [hequat, hepos]
          exact hinv (by rw [← hepf]; exact hne)
        cases i with
        | zero =>
          rw [List.get?_cons_zero] at hi
          injection hi with hi2
          injection hi2 with hma hmb
          rw [← hma, hcm] at hk
          exact Option.noConfusion hk
        | succ j =>
          simp only [List.get?_cons_succ] at hi ⊢
          exact ih r1.2 hfr' hns' hinv' j m k hi hk
      | some k0 =>
        by_cases hpf : r1.2.planning_frame = ""
        · simp only [hpf, ↓reduceIte, hm0f, hlk]
          cases i with
          | zero =>
            rw [List.get?_cons_zero] at hi
            injection hi with hi2
            injection hi2 with hma hmb
            subst hma
            rw [hcm] at hk
            injection hk with hk
            subst hk
            exact ⟨r1.1, rfl⟩
          | succ j =>
            simp only [List.get?_cons_succ] at hi ⊢
            exact ih { namespaces := r1.2.namespaces, planning_frame := f,
                       quat := qconj q, pos := p, nodeCtr := r1.2.nodeCtr,
                       lookups := r1.2.lookups + 1 }
              hfr' hns' (fun _ => ⟨rfl, rfl⟩) j m k hi hk
        · simp only [hpf, ↓reduceIte]
          obtain ⟨hq, hp⟩ := hinv (by rw [← hepf]; exact hpf)
          cases i with
          | zero =>
            rw [List.get?_cons_zero] at hi
            injection hi with hi2
            injection hi2 with hma hmb
            subst hma
            rw [hcm] at hk
            injection hk with hk
            subst hk
            refine ⟨r1.1, ?_⟩
            rw [List.get?_cons_zero, hequat, hq, hepos, hp]
          | succ j =>
            simp only [List.get?_cons_succ] at hi ⊢
            exact ih r1.2 hfr' hns'
              (fun _ => ⟨hequat.trans hq, hepos.trans hp⟩) j m k hi hk

theorem createMarkers_all_handled (ctx : DisplayContext) (mv : MarkerVis)
    (n : Nat) (hall : ∀ md ∈ mv.markers, md.2.isSome = true) :
    mv.createMarkers ctx n = ⟨mv, n, 0, none⟩ := by
  have h := cmLoop_all_handled ctx mv.markers
    ⟨mv.namespaces, "", ⟨1, 0, 0, 0⟩, ⟨0, 0, 0⟩, n, 0⟩ hall
  simp only [MarkerVis.createMarkers]
  rw [h]

/-! ### Claim theorems about `createMarkers` -/

/-- C4: when `createMarkers` creates and initializes a handle, its final
orientation is `R * handle.orientation` and its final position is
`R * (handle.position - t)`, where `R` and `t` are the rotation and
translation the call derives from its single
fixed-frame-to-planning-frame tf lookup: `R` is the conjugate of the
looked-up quaternion (`Ogre::Quaternion(q.w(), -q.x(), -q.y(), -q.z())`,
line 152, i.e. the fixed-frame→planning-frame rotation) and `t` the
looked-up origin; `handle.orientation` / `handle.position` are the
fixed-frame-relative pose `setMessage` leaves on the fresh handle. -/
theorem c4_handles_aligned (ctx : DisplayContext) (mv : MarkerVis) (n : Nat)
    (f : String) (q : Quat) (p : Vec3)
    (hfr : ∀ md ∈ mv.markers, md.1.frame_id = f)
    (hns : ∀ md ∈ mv.markers, (nsFind mv.namespaces md.1.ns).isSome = true)
    (hlk : ctx.lookupTransform ctx.fixedFrame f = some (q, p)) :
    ∀ (i : Nat) (m : Marker) (k : MKind),
      mv.markers.get? i = some (m, none) → createMarker m.type = some k →
      ∃ nd, ((mv.createMarkers ctx n).vis.markers).get? i
        = some (m, some ⟨k, nd, m, qmul (qconj q) (ctx.initPose m).1,
                          qrot (qconj q) (vsub (ctx.initPose m).2 p)⟩) :=
  fun i m k hi hk =>
    cmLoop_aligned ctx f q p hlk mv.markers
      ⟨mv.namespaces, "", ⟨1, 0, 0, 0⟩, ⟨0, 0, 0⟩, n, 0⟩ hfr hns
      (fun h => absurd rfl h) i m k hi hk

/-- C4 witness: the pending marker of `mvPend` is materialized by
`ctxOk` with the conjugated lookup rotation applied to its initial
orientation and to its translated initial position. -/
theorem c4_handles_aligned_witness :
    ∃ nd, ((mvPend.createMarkers ctxOk 0).vis.markers).get? 0
      = some (mMap, some ⟨MKind.shape, nd, mMap,
                qmul (qconj ⟨0, 1, 0, 0⟩) (ctxOk.initPose mMap).1,
                qrot (qconj ⟨0, 1, 0, 0⟩) (vsub (ctxOk.initPose mMap).2 ⟨1, 1, 1⟩)⟩) :=
  c4_handles_aligned ctxOk mvPend 0 "map" ⟨0, 1, 0, 0⟩ ⟨1, 1, 1⟩
    (by decide) (by decide) rfl 0 mMap MKind.shape (by decide) (by decide)

/-- C5 counterexample: a `createMarkers` call on a set whose single entry
already carries a handle performs zero transform lookups — not exactly
one per call. -/
theorem c5_counterexample :
    (mvDone.createMarkers ctxOk 0).lookups = 0 := by decide

/-- C5 (amended): within one `createMarkers` call the
fixed-frame-to-planning-frame transform is fetched at most once; it is
fetched exactly once whenever the call actually creates a handle (an
entry goes from no handle to a handle); and the pair cached from that
single fetch — the conjugated looked-up rotation and the looked-up
origin — is what every handle created in the call is aligned with.
Markers are assumed to carry non-empty frames
(`Q_ASSERT(!frame_id.empty())`, line 143); the alignment part also
assumes one shared frame with namespaces present — the constructor's
invariants, asserted at lines 133 and 155. -/
theorem c5_amended_lookup_at_most_once (ctx : DisplayContext)
    (mv : MarkerVis) (n : Nat)
    (hfr : ∀ md ∈ mv.markers, md.1.frame_id ≠ "") :
    (mv.createMarkers ctx n).lookups ≤ 1
    ∧ (∀ (i : Nat) (m : Marker) (h : Handle),
        mv.markers.get? i = some (m, none) →
        ((mv.createMarkers ctx n).vis.markers).get? i = some (m, some h) →
        (mv.createMarkers ctx n).lookups = 1)
    ∧ ∀ (f : String) (q : Quat) (p : Vec3),
        (∀ md ∈ mv.markers, md.1.frame_id = f) →
        (∀ md ∈ mv.markers, (nsFind mv.namespaces md.1.ns).isSome = true) →
        ctx.lookupTransform ctx.fixedFrame f = some (q, p) →
        ∀ (i : Nat) (m : Marker) (k : MKind),
          mv.markers.get? i = some (m, none) → createMarker m.type = some k →
          ∃ nd, ((mv.createMarkers ctx n).vis.markers).get? i
            = some (m, some ⟨k, nd, m, qmul (qconj q) (ctx.initPose m).1,
                              qrot (qconj q) (vsub (ctx.initPose m).2 p)⟩) := by
  refine ⟨?_, ?_, ?_⟩
  · exact (cmLoop_lookups ctx mv.markers
      ⟨mv.namespaces, "", ⟨1, 0, 0, 0⟩, ⟨0, 0, 0⟩, n, 0⟩ hfr).1
  · intro i m h hi ho
    have hub : (mv.createMarkers ctx n).lookups ≤ 1 :=
      (cmLoop_lookups ctx mv.markers
        ⟨mv.namespaces, "", ⟨1, 0, 0, 0⟩, ⟨0, 0, 0⟩, n, 0⟩ hfr).1
    have hlb : 1 ≤ (mv.createMarkers ctx n).lookups :=
      cmLoop_handle_created_lookup ctx mv.markers
        ⟨mv.namespaces, "", ⟨1, 0, 0, 0⟩, ⟨0, 0, 0⟩, n, 0⟩ rfl i m h hi ho
    omega
  · intro f q p hf hns hlk i m k hi hk
    exact cmLoop_aligned ctx f q p hlk mv.markers
      ⟨mv.namespaces, "", ⟨1, 0, 0, 0⟩, ⟨0, 0, 0⟩, n, 0⟩ hf hns
      (fun hh => absurd rfl hh) i m k hi hk

/-- C5 witness: materializing `mvPend` under `ctxOk` creates a handle for
its single pending entry, and the call performs exactly one lookup. -/
theorem c5_amended_lookup_at_most_once_witness :
    (mvPend.createMarkers ctxOk 0).lookups = 1 :=
  (c5_amended_lookup_at_most_once ctxOk mvPend 0 (by decide)).2.1 0 mMap
    ⟨MKind.shape, 0, mMap, ⟨0, -1, 0, 0⟩, ⟨-1, 1, 1⟩⟩ (by decide)
    (by norm_num [MarkerVis.createMarkers, cmLoop, ensureNode, nsFind, nsSet,
          mvPend, mMap, ctxOk, createMarker, qconj, qmul, qrot, vsub, qId,
          vZero, affId])

/-- C7: the claim states the intended design (the spec: lookup failure is
recoverable, never crashes the host), but the code calls
`tf::TransformListener::lookupTransform` — which throws
`tf::TransformException` on failure — with no try/catch anywhere in
`createMarkers`: at a concrete input whose lookup fails, the modelled
exception escapes the call (`err = some tfFail`), aborting it with the
first handle created but left unaligned. -/
theorem c7_lookup_failure_escapes :
    (mvPend.createMarkers ctxFail 0).err = some CMErr.tfFail := by decide

/-- C9: `createMarkers` materializes each handle exactly once across
repeated calls: every entry that already carries a handle is preserved
verbatim (skipped), and after a successful first call (no tf failure, no
unknown marker type) the second call is a complete no-op — same object,
same node counter, zero lookups, no error. -/
theorem c9_second_call_noop (ctx : DisplayContext) (mv : MarkerVis) (n : Nat)
    (h1 : (mv.createMarkers ctx n).err = none)
    (h2 : ∀ md ∈ mv.markers, createMarker md.1.type ≠ none) :
    (mv.createMarkers ctx n).vis.createMarkers ctx (mv.createMarkers ctx n).nodeCtr
      = ⟨(mv.createMarkers ctx n).vis, (mv.createMarkers ctx n).nodeCtr, 0, none⟩
    ∧ ∀ (i : Nat) (m : Marker) (h : Handle),
        mv.markers.get? i = some (m, some h) →
        ((mv.createMarkers ctx n).vis.markers).get? i = some (m, some h) := by
  constructor
  · have hall : ∀ md ∈ (mv.createMarkers ctx n).vis.markers, md.2.isSome = true :=
      cmLoop_complete ctx mv.markers
        ⟨mv.namespaces, "", ⟨1, 0, 0, 0⟩, ⟨0, 0, 0⟩, n, 0⟩ h1 h2
    exact createMarkers_all_handled ctx (mv.createMarkers ctx n).vis
      (mv.createMarkers ctx n).nodeCtr hall
  · intro i m h hi
    exact cmLoop_preserves_handled ctx mv.markers
      ⟨mv.namespaces, "", ⟨1, 0, 0, 0⟩, ⟨0, 0, 0⟩, n, 0⟩ i m h hi

/-- C9 witness: after materializing `mvPend` under `ctxOk`, a second
`createMarkers` call returns the state unchanged with zero lookups. -/
theorem c9_second_call_noop_witness :
    (mvPend.createMarkers ctxOk 0).vis.createMarkers ctxOk
        (mvPend.createMarkers ctxOk 0).nodeCtr
      = ⟨(mvPend.createMarkers ctxOk 0).vis,
         (mvPend.createMarkers ctxOk 0).nodeCtr, 0, none⟩ :=
  (c9_second_call_noop ctxOk mvPend 0 (by decide) (by decide)).1

end MarkerViz
